import Mathlib

/-!
Shallow embedding of the music_vis repository's two core subsystems:

* the GPU particle simulation of `main.js` (also present in `src/unnamed/part_001`):
  per-particle update (noise-driven velocity, friction, integration, life decay),
  the O(N) nearest-neighbor scan that tracks the two closest live particles,
  the spawn pass, and the per-tick audio-driven parameter derivation;

* the Spout streaming pipeline of the Electron main process
  (second half of `src/src/scenes/skinning.js`): the module state
  (`spoutAvailable`, `spoutEnabled`, `spoutSender`, `spoutWindow`,
  `hasShownSpoutDialog`, `paintCount`, `frameSkip`, ...), the
  `spout:enable` / `spout:disable` / `spout:get-status` handlers, the
  offscreen-window resolution selection, and the `paint` event handler with
  its frame-skip pacing and per-frame try/catch.

Machine floats are modelled by rationals; the fractal-noise field is an
opaque function parameter (its exact values never matter to the claims).
-/

namespace MusicVis

/-- A 3-component vector of rationals (models a GPU `vec3` of floats). -/
structure Vec3 where
  x : ℚ
  y : ℚ
  z : ℚ
deriving DecidableEq

/-- Componentwise addition (`a.add(b)` / `addAssign`). -/
def Vec3.add (a b : Vec3) : Vec3 :=
  ⟨a.x + b.x, a.y + b.y, a.z + b.z⟩

/-- Componentwise subtraction (`a.sub(b)`). -/
def Vec3.sub (a b : Vec3) : Vec3 :=
  ⟨a.x - b.x, a.y - b.y, a.z - b.z⟩

/-- Scalar multiplication (`v.mul(c)` / `mulAssign`). -/
def Vec3.smul (c : ℚ) (a : Vec3) : Vec3 :=
  ⟨c * a.x, c * a.y, c * a.z⟩

/-- Squared length (`v.lengthSq()`). -/
def Vec3.lengthSq (a : Vec3) : ℚ :=
  a.x * a.x + a.y * a.y + a.z * a.z

/-- The zero vector (`vec3(0.0)`). -/
def vec3Zero : Vec3 := ⟨0, 0, 0⟩

/-- One particle's state: `particlePositions` packs position (xyz) and life (w)
into a vec4; `particleVelocities` holds the velocity. `life ≤ 0` means dead. -/
structure Particle where
  position : Vec3
  life : ℚ
  velocity : Vec3
deriving DecidableEq

/-- `dt = deltaTime.mul(0.1).mul(timeScale)` — `main.js` line 183. -/
def dtCalc (frameDelta timeScale : ℚ) : ℚ :=
  frameDelta * (1 / 10) * timeScale

/-- The physics part of the `updateParticles` compute pass (`main.js` 179-190),
for a single particle. `noise` stands for the already-amplitude-scaled
`mx_fractal_noise_vec3(·, turbOctaves, turbLacunarity, turbGain, turbAmplitude)`
field, sampled at the frequency-scaled position. Mirrors the source's
sequential mutation: velocity += noise(pos*freq)*(life+0.01);
velocity *= (1-friction); position += velocity*dt; life -= dt*(1/lifetime).
A particle with `life ≤ 0` is left untouched (the whole body sits inside
`If(life.greaterThan(0.0), ...)`). -/
def updateParticle (noise : Vec3 → Vec3) (freq friction dt lifetime : ℚ)
    (p : Particle) : Particle :=
  if 0 < p.life then
    let localVel := Vec3.smul (p.life + 1 / 100) (noise (Vec3.smul freq p.position))
    let vel1 := Vec3.add p.velocity localVel
    let vel2 := Vec3.smul (1 - friction) vel1
    let pos1 := Vec3.add p.position (Vec3.smul dt vel2)
    let life1 := p.life - dt * lifetime⁻¹
    { position := pos1, life := life1, velocity := vel2 }
  else p

/-- The same update written exactly as the specification phrases it:
`velocity += fractalNoise(position * turbulenceFrequency) * (life + ε)` with
ε = 0.01, then `velocity *= (1 - friction)`, then `position += velocity * dt`,
then `life -= dt / lifetimeConstant`, with `dt = frameDelta * timeScale * 0.1`;
dead particles unchanged. -/
def specUpdateParticle (noise : Vec3 → Vec3) (freq friction dt lifetime : ℚ)
    (p : Particle) : Particle :=
  if 0 < p.life then
    let v := Vec3.smul (1 - friction)
      (Vec3.add p.velocity
        (Vec3.smul (p.life + 1 / 100) (noise (Vec3.smul freq p.position))))
    { position := Vec3.add p.position (Vec3.smul dt v)
      life := p.life - dt / lifetime
      velocity := v }
  else p

/-- The parameters one tick of the update pass runs with. -/
structure TickStep where
  noise : Vec3 → Vec3
  freq : ℚ
  friction : ℚ
  dt : ℚ
  lifetime : ℚ

/-- Iterating the update pass over a sequence of ticks. -/
def updateTicks (steps : List TickStep) (p : Particle) : Particle :=
  steps.foldl
    (fun q st => updateParticle st.noise st.freq st.friction st.dt st.lifetime q) p

/-- One slot's re-initialization by the `spawnParticles` compute pass
(`main.js` 253-269): `life.assign(1.0)`, position = interpolated spawn point
plus `rDir * 0.01`, velocity = `rDir * 5.0`. The hash-derived unit direction
`rDir` and the interpolated emission point are taken as parameters. -/
def spawnParticle (rDir spawnPos : Vec3) : Particle :=
  { position := Vec3.add spawnPos (Vec3.smul (1 / 100) rDir)
    life := 1
    velocity := Vec3.smul 5 rDir }

/-- The two tracked neighbor records of the nearest-neighbor scan
(`main.js` 192-197): `(closestDist1, closestPos1, closestLife1)` and
`(closestDist2, closestPos2, closestLife2)`. -/
structure ScanState where
  d1 : ℚ
  p1 : Vec3
  l1 : ℚ
  d2 : ℚ
  p2 : Vec3
  l2 : ℚ
deriving DecidableEq

/-- Initial records: `float(10000.0)`, `vec3(0.0)`, `float(0.0)` for both. -/
def initScanState : ScanState :=
  ⟨10000, vec3Zero, 0, 10000, vec3Zero, 0⟩

/-- Squared distance from the scanning particle's position to a candidate. -/
def dOf (selfPos : Vec3) (c : ℕ × Particle) : ℚ :=
  Vec3.lengthSq (Vec3.sub selfPos c.2.position)

/-- One iteration of the neighbor loop (`main.js` 199-215): skip self and dead
candidates; otherwise update record 1 when `dist < closestDist1 ∧ dist > 0`,
else update record 2 when `dist < closestDist2 ∧ dist > 0`. -/
def scanStep (selfIdx : ℕ) (selfPos : Vec3) (s : ScanState)
    (c : ℕ × Particle) : ScanState :=
  if c.1 ≠ selfIdx ∧ 0 < c.2.life then
    if dOf selfPos c < s.d1 ∧ 0 < dOf selfPos c then
      { s with d1 := dOf selfPos c, p1 := c.2.position, l1 := c.2.life }
    else if dOf selfPos c < s.d2 ∧ 0 < dOf selfPos c then
      { s with d2 := dOf selfPos c, p2 := c.2.position, l2 := c.2.life }
    else s
  else s

/-- Pair each particle with its index, starting from `i` (the loop counter
of `Loop(nbParticles, ...)`). -/
def enumFrom (i : ℕ) : List Particle → List (ℕ × Particle)
  | [] => []
  | p :: ps => (i, p) :: enumFrom (i + 1) ps

/-- The whole `Loop(nbParticles, ...)` scan: fold `scanStep` in index order
over all particles, starting from the sentinel records. -/
def neighborScan (selfIdx : ℕ) (selfPos : Vec3) (parts : List Particle) :
    ScanState :=
  (enumFrom 0 parts).foldl (scanStep selfIdx selfPos) initScanState

/-- The candidates the scan can actually record: other index, live, at
strictly positive squared distance. -/
def candValid (selfIdx : ℕ) (selfPos : Vec3) (c : ℕ × Particle) : Bool :=
  decide (c.1 ≠ selfIdx ∧ 0 < c.2.life ∧ 0 < dOf selfPos c)

/-- The valid candidates of a particle array, in index order. -/
def validCands (selfIdx : ℕ) (selfPos : Vec3) (parts : List Particle) :
    List (ℕ × Particle) :=
  (enumFrom 0 parts).filter (candValid selfIdx selfPos)

/-- Running minimum starting from the sentinel 10000. -/
def runMin (l : List ℚ) : ℚ :=
  l.foldl min 10000

/-- What the fold guarantees about the records after processing the valid
candidates `done`: record 1 is the running minimum, attained by the first
candidate reaching it; the records are ordered; record 2, when it left its
sentinel, holds some processed candidate's data. -/
def ScanInv (selfPos : Vec3) (done : List (ℕ × Particle)) (s : ScanState) :
    Prop :=
  s.d1 = runMin (done.map (dOf selfPos)) ∧
  s.d1 ≤ s.d2 ∧
  (s.d1 < 10000 →
    ∃ pre c post, done = pre ++ c :: post ∧ dOf selfPos c = s.d1 ∧
      c.2.position = s.p1 ∧ c.2.life = s.l1 ∧
      ∀ c' ∈ pre, s.d1 < dOf selfPos c') ∧
  (s.d2 < 10000 →
    ∃ c ∈ done, dOf selfPos c = s.d2 ∧ c.2.position = s.p2 ∧ c.2.life = s.l2)

/-- The audio scalars produced once per tick. -/
structure AudioScalars where
  bass : ℚ
  mid : ℚ
  high : ℚ
  overall : ℚ
deriving DecidableEq

/-- `Math.floor(baseSpawnRate + bass * bassSpawnRateGain)` —
`part_001` line 541 (with `settings` values), `main.js` line 322
(with the hard-coded base 5 and gain 50). -/
def nbToSpawnCalc (base gain bass : ℚ) : ℤ :=
  Int.floor (base + bass * gain)

/-- The audio-derived per-tick uniforms of the simulation
(`src/unnamed/part_001` lines 541-546). -/
structure TickParams where
  nbToSpawn : ℤ
  turbAmplitude : ℚ
  turbFrequency : ℚ
  particleSize : ℚ
  colorRotationSpeed : ℚ
  particleLifetime : ℚ
deriving DecidableEq

/-- The per-tick uniform derivation of `animate` (`part_001` 541-546). -/
def deriveTickParams (baseSpawnRate bassSpawnRateGain baseTurbulence
    midTurbulenceGain midFrequencyGain baseSize highSizeGain highColorGain
    overallLifetimeGain : ℚ) (a : AudioScalars) : TickParams :=
  { nbToSpawn := nbToSpawnCalc baseSpawnRate bassSpawnRateGain a.bass
    turbAmplitude := baseTurbulence + a.mid * midTurbulenceGain
    turbFrequency := 1 / 2 + a.mid * midFrequencyGain
    particleSize := baseSize + a.high * highSizeGain
    colorRotationSpeed := 1 + a.high * highColorGain
    particleLifetime := 1 / 2 + (1 - a.overall * overallLifetimeGain) * (1 / 2) }

/-- What the `paint` event delivers: a shared GPU texture, a CPU bitmap
image, or neither. -/
inductive Frame where
  | tex : Frame
  | bmp : Frame
  | empty : Frame
deriving DecidableEq

/-- What one run of the `paint` handler did: whether a sender hand-off
(`updateTexture` / `updateFrame`) was invoked, and whether its exception was
caught and logged. -/
structure PaintResult where
  attempted : Bool
  errorLogged : Bool
deriving DecidableEq

/-- The Electron main-process module state of the streaming pipeline
(`skinning.js` second half): `spoutAvailable`, `spoutEnabled`,
`spoutSender` (null or not), `spoutWindow` (with its fixed pixel size),
`hasShownSpoutDialog`, `mainWindow` (null or not), `paintCount`,
`texturePathCount`, `bitmapPathCount`, `frameSkip`. -/
structure SpoutState where
  available : Bool
  enabled : Bool
  sender : Bool
  window : Option (ℕ × ℕ)
  hasShownDialog : Bool
  mainWindow : Bool
  paintCount : ℕ
  texCount : ℕ
  bmpCount : ℕ
  frameSkip : ℕ
deriving DecidableEq

/-- The module state right after startup. -/
def initialSpoutState (avail : Bool) : SpoutState :=
  { available := avail, enabled := false, sender := false, window := none
    hasShownDialog := false, mainWindow := true, paintCount := 0
    texCount := 0, bmpCount := 0, frameSkip := 0 }

/-- `options.resolution || '1080p'` — a missing or empty resolution string
falls back to `'1080p'`. -/
def resolveResolution (opts : Option String) : String :=
  match opts with
  | none => "1080p"
  | some s => if s = "" then "1080p" else s

/-- `createSpoutWindow`'s size choice (`skinning.js` 272-273):
1280×720 when the string equals `'720p'`, otherwise 1920×1080. -/
def resolveSize (res : String) : ℕ × ℕ :=
  if res = "720p" then (1280, 720) else (1920, 1080)

/-- `createSpoutWindow(resolution)`: no-op when a window already exists,
otherwise create the offscreen window at the resolved size. -/
def createSpoutWindow (res : String) (w : Option (ℕ × ℕ)) : Option (ℕ × ℕ) :=
  match w with
  | some wh => some wh
  | none => some (resolveSize res)

/-- Result of the `spout:enable` IPC handler. -/
structure EnableResult where
  success : Bool
  error : Option String
deriving DecidableEq

/-- The `spout:enable` handler (`skinning.js` 394-428). When the native
module is unavailable: show the informational dialog once (only if the main
window exists and it was never shown), and fail with a fixed error string.
Otherwise create the offscreen window at the requested resolution and a new
sender; `senderThrows` models the `new SpoutOutput(...)` constructor
throwing, which the handler catches and reports. The returned `Bool` is
whether the dialog was shown by this call. -/
def enableOp (s : SpoutState) (opts : Option String) (senderThrows : Bool) :
    SpoutState × EnableResult × Bool :=
  if s.available = false then
    if s.hasShownDialog = false ∧ s.mainWindow = true then
      ({ s with hasShownDialog := true },
        ⟨false, some "Spout not available - native module not compiled"⟩, true)
    else
      (s, ⟨false, some "Spout not available - native module not compiled"⟩,
        false)
  else
    let w := createSpoutWindow (resolveResolution opts) s.window
    if senderThrows then
      ({ s with window := w }, ⟨false, some "Spout enable error"⟩, false)
    else
      ({ s with window := w, sender := true, enabled := true },
        ⟨true, none⟩, false)

/-- The `spout:disable` handler (`skinning.js` 430-438): clear `spoutEnabled`,
close the offscreen window, null the sender; always succeeds. -/
def disableOp (s : SpoutState) : SpoutState × Bool :=
  ({ s with enabled := false, window := none, sender := false }, true)

/-- The `spout:get-status` handler: returns `spoutEnabled`. -/
def getStatus (s : SpoutState) : Bool :=
  s.enabled

/-- The `paint` event handler (`skinning.js` 302-335): increment `paintCount`;
bail out when no sender or not enabled; inside the per-frame try/catch, skip
the frame unless `frameSkip = 0` or `paintCount` is divisible by
`frameSkip + 1`; otherwise invoke the texture hand-off (fast path) or the
bitmap hand-off (slow path), bumping the matching path counter first.
`senderThrows` models the hand-off throwing; the catch only logs. -/
def paintOp (s : SpoutState) (fd : Frame) (senderThrows : Bool) :
    SpoutState × PaintResult :=
  let s1 : SpoutState := { s with paintCount := s.paintCount + 1 }
  if s.sender = false ∨ s.enabled = false then
    (s1, ⟨false, false⟩)
  else if 0 < s.frameSkip ∧ ¬ s1.paintCount % (s.frameSkip + 1) = 0 then
    (s1, ⟨false, false⟩)
  else
    match fd with
    | Frame.tex => ({ s1 with texCount := s1.texCount + 1 }, ⟨true, senderThrows⟩)
    | Frame.bmp => ({ s1 with bmpCount := s1.bmpCount + 1 }, ⟨true, senderThrows⟩)
    | Frame.empty => (s1, ⟨false, false⟩)

/-- The state after `n` further paints (texture frames, no hand-off
exception) from `s`. -/
def paintStates (s : SpoutState) : ℕ → SpoutState
  | 0 => s
  | n + 1 => (paintOp (paintStates s n) Frame.tex false).1

/-- Whether the `(n+1)`-th paint after `s` forwards its frame to the sender. -/
def nthForward (s : SpoutState) (n : ℕ) : Bool :=
  (paintOp (paintStates s n) Frame.tex false).2.attempted

/-- Fold a sequence of `spout:enable` calls (resolution option, constructor
throw) over the state, counting how many of them showed the dialog. -/
def enableRun (s : SpoutState) : List (Option String × Bool) → ℕ
  | [] => 0
  | (o, th) :: rest =>
    let r := enableOp s o th
    (if r.2.2 then 1 else 0) + enableRun r.1 rest

/-- Concrete 4-particle array for exercising the neighbor scan: particle 0
scans; candidates sit at distances 9, 4, 1 in index order. -/
def testParts : List Particle :=
  [ { position := vec3Zero, life := 1, velocity := vec3Zero },
    { position := ⟨3, 0, 0⟩, life := 1 / 2, velocity := vec3Zero },
    { position := ⟨2, 0, 0⟩, life := 1 / 2, velocity := vec3Zero },
    { position := ⟨1, 0, 0⟩, life := 1 / 2, velocity := vec3Zero } ]

/-- A live particle at the origin, at rest. -/
def testParticle : Particle :=
  { position := vec3Zero, life := 1, velocity := vec3Zero }

/-- A trivially concrete noise field. -/
def zeroNoise : Vec3 → Vec3 :=
  fun _ => vec3Zero

/-- A streaming session in the Active state with `frameSkip = 2`. -/
def activeSpoutState : SpoutState :=
  { available := true, enabled := true, sender := true
    window := some (1920, 1080), hasShownDialog := false, mainWindow := true
    paintCount := 0, texCount := 0, bmpCount := 0, frameSkip := 2 }

/-- The update pass leaves a dead particle untouched. -/
theorem updateParticle_dead (noise : Vec3 → Vec3) (freq friction dt lifetime : ℚ)
    (p : Particle) (h : p.life ≤ 0) :
    updateParticle noise freq friction dt lifetime p = p := by
  unfold updateParticle
  rw [if_neg (not_lt.mpr h)]

/-- Any sequence of update ticks leaves a dead particle untouched. -/
theorem updateTicks_dead (steps : List TickStep) (p : Particle)
    (h : p.life ≤ 0) : updateTicks steps p = p := by
  induction steps with
  | nil => rfl
  | cons st steps ih =>
    unfold updateTicks
    rw [List.foldl_cons,
      updateParticle_dead st.noise st.freq st.friction st.dt st.lifetime p h]
    exact ih

/-- Claim C3: each particle's life is monotonically non-increasing under the
Update pass (which only subtracts the non-negative decrement
`dt / lifetimeConstant` when the particle is live), a particle whose life is
≤ 0 is left exactly as it is by every subsequent Update tick, and the Spawn
pass re-initializes a slot with life = 1.0. -/
theorem claim3_life_monotone (noise : Vec3 → Vec3)
    (freq friction dt lifetime : ℚ) (p : Particle) (steps : List TickStep)
    (rDir spawnPos : Vec3) (hdt : 0 ≤ dt) (hlt : 0 < lifetime) :
    (updateParticle noise freq friction dt lifetime p).life ≤ p.life ∧
    (p.life ≤ 0 → updateTicks steps p = p) ∧
    (spawnParticle rDir spawnPos).life = 1 := by
  refine ⟨?_, fun h => updateTicks_dead steps p h, rfl⟩
  unfold updateParticle
  by_cases h : 0 < p.life
  · rw [if_pos h]
    have hdec : 0 ≤ dt * lifetime⁻¹ :=
      mul_nonneg hdt (inv_nonneg.mpr (le_of_lt hlt))
    simpa using sub_le_self p.life hdec
  · rw [if_neg h]

/-- Witness for C3 at a concrete live particle and concrete parameters. -/
theorem claim3_life_monotone_witness :
    (0 : ℚ) ≤ 1 ∧ (0 : ℚ) < 1 ∧
    ((updateParticle zeroNoise 1 0 1 1 testParticle).life ≤ testParticle.life ∧
      (testParticle.life ≤ 0 → updateTicks [] testParticle = testParticle) ∧
      (spawnParticle vec3Zero vec3Zero).life = 1) :=
  ⟨by norm_num, by norm_num,
    claim3_life_monotone zeroNoise 1 0 1 1 testParticle [] vec3Zero vec3Zero
      (by norm_num) (by norm_num)⟩

/-- Claim C4: for a live particle the Update pass computes exactly
`velocity += noise(position * turbulenceFrequency) * (life + 0.01)`, then
`velocity *= (1 - friction)`, then `position += velocity * dt`, then
`life -= dt / lifetimeConstant`, with `dt = frameDelta * timeScale * 0.1`
(the code computes `deltaTime * 0.1 * timeScale`, the same product); a
particle with life ≤ 0 is left unchanged. -/
theorem claim4_update_exact (noise : Vec3 → Vec3)
    (freq friction frameDelta timeScale lifetime dt : ℚ) (p : Particle) :
    updateParticle noise freq friction (dtCalc frameDelta timeScale) lifetime p
      = specUpdateParticle noise freq friction
          (frameDelta * timeScale * (1 / 10)) lifetime p ∧
    (p.life ≤ 0 → updateParticle noise freq friction dt lifetime p = p) := by
  refine ⟨?_, fun h => updateParticle_dead noise freq friction dt lifetime p h⟩
  have hdt : dtCalc frameDelta timeScale = frameDelta * timeScale * (1 / 10) := by
    unfold dtCalc; ring
  rw [hdt]
  unfold updateParticle specUpdateParticle
  by_cases h : 0 < p.life
  · rw [if_pos h, if_pos h]
    simp only [div_eq_mul_inv]
  · rw [if_neg h, if_neg h]

/-- Witness for C4 at concrete parameters and a concrete particle. -/
theorem claim4_update_exact_witness :
    updateParticle zeroNoise 1 (1 / 100) (dtCalc 1 1) (1 / 2) testParticle
      = specUpdateParticle zeroNoise 1 (1 / 100) (1 * 1 * (1 / 10)) (1 / 2)
          testParticle ∧
    (testParticle.life ≤ 0 →
      updateParticle zeroNoise 1 (1 / 100) 1 (1 / 2) testParticle
        = testParticle) :=
  claim4_update_exact zeroNoise 1 (1 / 100) 1 1 (1 / 2) 1 testParticle

/-- Claim C6: the number of particles to spawn each tick is
`floor(baseSpawnRate + bass * bassSpawnRateGain)`; with base spawn rate 5,
bass gain 50 and bass = 1 this is `floor(5 + 1*50) = 55`. -/
theorem claim6_spawn_rate (baseSpawnRate bassSpawnRateGain baseTurbulence
    midTurbulenceGain midFrequencyGain baseSize highSizeGain highColorGain
    overallLifetimeGain : ℚ) (a : AudioScalars) :
    (deriveTickParams baseSpawnRate bassSpawnRateGain baseTurbulence
        midTurbulenceGain midFrequencyGain baseSize highSizeGain highColorGain
        overallLifetimeGain a).nbToSpawn
      = Int.floor (baseSpawnRate + a.bass * bassSpawnRateGain) ∧
    nbToSpawnCalc 5 50 1 = 55 := by
  exact ⟨rfl, by norm_num [nbToSpawnCalc]⟩

/-- Folding a function that ignores the elements a Bool predicate rejects is
the same as folding over the filtered list. -/
theorem foldl_skip_filter {α β : Type} (f : β → α → β) (q : α → Bool)
    (hf : ∀ s a, q a = false → f s a = s) :
    ∀ (l : List α) (s : β), l.foldl f s = (l.filter q).foldl f s := by
  intro l
  induction l with
  | nil => intro s; rfl
  | cons a l ih =>
    intro s
    by_cases hq : q a = true
    · rw [List.foldl_cons, List.filter_cons, if_pos hq, List.foldl_cons, ih]
    · have hqa : q a = false := by
        cases hqv : q a
        · rfl
        · exact absurd hqv hq
      rw [List.foldl_cons, hf s a hqa, List.filter_cons, if_neg hq, ih]

/-- An invalid candidate (self, dead, or at squared distance outside the
recordable range) leaves the scan records unchanged. -/
theorem scanStep_invalid (selfIdx : ℕ) (selfPos : Vec3) (s : ScanState)
    (c : ℕ × Particle) (h : candValid selfIdx selfPos c = false) :
    scanStep selfIdx selfPos s c = s := by
  unfold candValid at h
  rw [decide_eq_false_iff_not] at h
  push_neg at h
  unfold scanStep
  split_ifs with h1 h2 h3
  · exact absurd h2.2 (not_lt.mpr (h h1.1 h1.2))
  · exact absurd h3.2 (not_lt.mpr (h h1.1 h1.2))
  · rfl
  · rfl

/-- A running minimum never exceeds its starting value. -/
theorem foldl_min_le_init :
    ∀ (l : List ℚ) (a : ℚ), l.foldl min a ≤ a := by
  intro l
  induction l with
  | nil => intro a; exact le_refl a
  | cons b l ih =>
    intro a
    exact le_trans (ih (min a b)) (min_le_left a b)

/-- A running minimum never exceeds any list element. -/
theorem foldl_min_le_mem :
    ∀ (l : List ℚ) (a x : ℚ), x ∈ l → l.foldl min a ≤ x := by
  intro l
  induction l with
  | nil =>
    intro a x hx
    exact absurd hx (List.not_mem_nil x)
  | cons b l ih =>
    intro a x hx
    rcases List.mem_cons.mp hx with h | h
    · subst h
      exact le_trans (foldl_min_le_init l (min a x)) (min_le_right a x)
    · exact ih (min a b) x h

/-- `runMin` is a lower bound of the list. -/
theorem runMin_le_mem (l : List ℚ) (x : ℚ) (hx : x ∈ l) : runMin l ≤ x :=
  foldl_min_le_mem l 10000 x hx

/-- Appending one more distance takes a `min` with it. -/
theorem runMin_append (l : List ℚ) (d : ℚ) :
    runMin (l ++ [d]) = min (runMin l) d := by
  unfold runMin
  rw [List.foldl_append]
  rfl

/-- Processing one valid candidate preserves the scan invariant. -/
theorem scanStep_inv (selfIdx : ℕ) (selfPos : Vec3)
    (done : List (ℕ × Particle)) (s : ScanState) (c : ℕ × Particle)
    (hc : candValid selfIdx selfPos c = true)
    (hinv : ScanInv selfPos done s) :
    ScanInv selfPos (done ++ [c]) (scanStep selfIdx selfPos s c) := by
  unfold ScanInv at hinv
  obtain ⟨h1, h12, hat1, hat2⟩ := hinv
  have hcv : c.1 ≠ selfIdx ∧ 0 < c.2.life ∧ 0 < dOf selfPos c := by
    unfold candValid at hc
    exact of_decide_eq_true hc
  have hmap : (done ++ [c]).map (dOf selfPos)
      = done.map (dOf selfPos) ++ [dOf selfPos c] := by
    simp
  unfold scanStep
  rw [if_pos ⟨hcv.1, hcv.2.1⟩]
  by_cases hlt1 : dOf selfPos c < s.d1 ∧ 0 < dOf selfPos c
  · rw [if_pos hlt1]
    unfold ScanInv
    refine ⟨?_, ?_, ?_, ?_⟩
    · show dOf selfPos c = runMin ((done ++ [c]).map (dOf selfPos))
      rw [hmap, runMin_append, ← h1]
      exact (min_eq_right (le_of_lt hlt1.1)).symm
    · show dOf selfPos c ≤ s.d2
      exact le_trans (le_of_lt hlt1.1) h12
    · intro _
      refine ⟨done, c, [], by simp, rfl, rfl, rfl, ?_⟩
      intro c' hc'
      show dOf selfPos c < dOf selfPos c'
      have hmem : dOf selfPos c' ∈ done.map (dOf selfPos) :=
        List.mem_map_of_mem (dOf selfPos) hc'
      calc dOf selfPos c < s.d1 := hlt1.1
        _ = runMin (done.map (dOf selfPos)) := h1
        _ ≤ dOf selfPos c' := runMin_le_mem _ _ hmem
    · intro hd2
      obtain ⟨c', hc', hv⟩ := hat2 hd2
      exact ⟨c', List.mem_append_left _ hc', hv⟩
  · rw [if_neg hlt1]
    have hge : s.d1 ≤ dOf selfPos c := by
      rcases lt_or_ge (dOf selfPos c) s.d1 with hlt | hle
      · exact absurd ⟨hlt, hcv.2.2⟩ hlt1
      · exact hle
    have hd1new : s.d1 = runMin ((done ++ [c]).map (dOf selfPos)) := by
      rw [hmap, runMin_append, ← h1]
      exact (min_eq_left hge).symm
    have hext : s.d1 < 10000 →
        ∃ pre cc post, done ++ [c] = pre ++ cc :: post ∧
          dOf selfPos cc = s.d1 ∧ cc.2.position = s.p1 ∧ cc.2.life = s.l1 ∧
          ∀ c' ∈ pre, s.d1 < dOf selfPos c' := by
      intro hd1
      obtain ⟨pre, cc, post, heq, hd, hp, hl, hpre⟩ := hat1 hd1
      exact ⟨pre, cc, post ++ [c], by rw [heq]; simp, hd, hp, hl, hpre⟩
    by_cases hlt2 : dOf selfPos c < s.d2 ∧ 0 < dOf selfPos c
    · rw [if_pos hlt2]
      unfold ScanInv
      refine ⟨hd1new, hge, hext, ?_⟩
      intro _
      exact ⟨c, List.mem_append_right _ (List.mem_singleton.mpr rfl),
        rfl, rfl, rfl⟩
    · rw [if_neg hlt2]
      unfold ScanInv
      refine ⟨hd1new, h12, hext, ?_⟩
      intro hd2
      obtain ⟨c', hc', hv⟩ := hat2 hd2
      exact ⟨c', List.mem_append_left _ hc', hv⟩

/-- Folding the scan over any list of valid candidates preserves the
invariant. -/
theorem scanFold_inv (selfIdx : ℕ) (selfPos : Vec3) :
    ∀ (l : List (ℕ × Particle)),
      (∀ c ∈ l, candValid selfIdx selfPos c = true) →
      ∀ (done : List (ℕ × Particle)) (s : ScanState),
        ScanInv selfPos done s →
        ScanInv selfPos (done ++ l) (l.foldl (scanStep selfIdx selfPos) s) := by
  intro l
  induction l with
  | nil =>
    intro _ done s h
    simpa using h
  | cons c l ih =>
    intro hval done s h
    rw [List.foldl_cons]
    have hstep := scanStep_inv selfIdx selfPos done s c
      (hval c (List.mem_cons_self c l)) h
    have hrest := ih (fun c' hc' => hval c' (List.mem_cons_of_mem c hc'))
      (done ++ [c]) (scanStep selfIdx selfPos s c) hstep
    simpa [List.append_assoc] using hrest

/-- The scan only reacts to valid candidates: it equals the fold over the
filtered candidate list. -/
theorem neighborScan_eq_validFold (selfIdx : ℕ) (selfPos : Vec3)
    (parts : List Particle) :
    neighborScan selfIdx selfPos parts
      = (validCands selfIdx selfPos parts).foldl (scanStep selfIdx selfPos)
          initScanState := by
  unfold neighborScan validCands
  exact foldl_skip_filter (scanStep selfIdx selfPos)
    (candValid selfIdx selfPos)
    (fun s c h => scanStep_invalid selfIdx selfPos s c h)
    (enumFrom 0 parts) initScanState

/-- The sentinel records satisfy the invariant for the empty prefix. -/
theorem scanInv_init (selfPos : Vec3) : ScanInv selfPos [] initScanState := by
  unfold ScanInv initScanState runMin
  norm_num

/-- The records at the end of the scan satisfy the invariant over the full
valid-candidate list. -/
theorem scan_records (selfIdx : ℕ) (selfPos : Vec3) (parts : List Particle) :
    ScanInv selfPos (validCands selfIdx selfPos parts)
      (neighborScan selfIdx selfPos parts) := by
  rw [neighborScan_eq_validFold]
  have hval : ∀ c ∈ validCands selfIdx selfPos parts,
      candValid selfIdx selfPos c = true := by
    intro c hc
    exact List.of_mem_filter hc
  have h := scanFold_inv selfIdx selfPos (validCands selfIdx selfPos parts)
    hval [] initScanState (scanInv_init selfPos)
  simpa using h

/-- Claim C1 (amended): at the end of the scan, record 1 holds the minimum
strictly-positive squared distance to another live particle (capped by the
sentinel 10000), with its position and life, ties broken in favor of the
first candidate in index order (every earlier valid candidate is strictly
farther); record 2 is at least as far as record 1 and, when it left its
sentinel, holds some valid candidate's data — but it is not in general the
2nd-nearest. -/
theorem claim1_nearest_records (selfIdx : ℕ) (selfPos : Vec3)
    (parts : List Particle) :
    ScanInv selfPos (validCands selfIdx selfPos parts)
      (neighborScan selfIdx selfPos parts) :=
  scan_records selfIdx selfPos parts

/-- Witness for C1 (amended) at the concrete 4-particle array. -/
theorem claim1_nearest_records_witness :
    ScanInv vec3Zero (validCands 0 vec3Zero testParts)
      (neighborScan 0 vec3Zero testParts) :=
  claim1_nearest_records 0 vec3Zero testParts

/-- Counterexample to C1 as stated: with candidate distances 9, 4, 1 in index
order, the scan ends with record 2 still holding its sentinel initialization
(distance 10000, position (0,0,0), life 0) although the 2nd-nearest live
particle sits at squared distance 4 — a displaced record 1 is never demoted
into record 2. -/
theorem claim1_counterexample :
    (validCands 0 vec3Zero testParts).map (dOf vec3Zero) = [9, 4, 1] ∧
    neighborScan 0 vec3Zero testParts
      = ⟨1, ⟨1, 0, 0⟩, 1 / 2, 10000, vec3Zero, 0⟩ ∧
    ¬ (neighborScan 0 vec3Zero testParts).d2 = 4 := by
  refine ⟨?_, ?_, ?_⟩ <;>
    norm_num [validCands, neighborScan, enumFrom, scanStep, candValid, dOf,
      Vec3.lengthSq, Vec3.sub, initScanState, testParts, vec3Zero]

/-- Claim C5: a candidate that is the particle itself, a dead candidate, or a
candidate at zero squared distance leaves the tracked records unchanged; every
candidate the scan can record is another live particle at strictly positive
squared distance, and the final records only ever hold such candidates'
data. -/
theorem claim5_neighbor_exclusions (selfIdx : ℕ) (selfPos : Vec3)
    (s : ScanState) (i : ℕ) (o : Particle) (parts : List Particle) :
    ((i = selfIdx ∨ o.life ≤ 0 ∨ dOf selfPos (i, o) = 0) →
      scanStep selfIdx selfPos s (i, o) = s) ∧
    (∀ c ∈ validCands selfIdx selfPos parts,
      c.1 ≠ selfIdx ∧ 0 < c.2.life ∧ 0 < dOf selfPos c) ∧
    ((neighborScan selfIdx selfPos parts).d1 < 10000 →
      ∃ c ∈ validCands selfIdx selfPos parts,
        c.2.position = (neighborScan selfIdx selfPos parts).p1 ∧
        c.2.life = (neighborScan selfIdx selfPos parts).l1) ∧
    ((neighborScan selfIdx selfPos parts).d2 < 10000 →
      ∃ c ∈ validCands selfIdx selfPos parts,
        c.2.position = (neighborScan selfIdx selfPos parts).p2 ∧
        c.2.life = (neighborScan selfIdx selfPos parts).l2) := by
  have hmem : ∀ c ∈ validCands selfIdx selfPos parts,
      c.1 ≠ selfIdx ∧ 0 < c.2.life ∧ 0 < dOf selfPos c := by
    intro c hc
    have := List.of_mem_filter hc
    unfold candValid at this
    exact of_decide_eq_true this
  obtain ⟨_, _, hat1, hat2⟩ := scan_records selfIdx selfPos parts
  refine ⟨?_, hmem, ?_, ?_⟩
  · intro h
    apply scanStep_invalid
    unfold candValid
    rw [decide_eq_false_iff_not]
    rcases h with h | h | h
    · intro hcon
      exact absurd h hcon.1
    · intro hcon
      exact absurd hcon.2.1 (not_lt.mpr h)
    · intro hcon
      rw [h] at hcon
      exact absurd hcon.2.2 (lt_irrefl 0)
  · intro hd1
    obtain ⟨pre, c, post, heq, _, hp, hl, _⟩ := hat1 hd1
    refine ⟨c, ?_, hp, hl⟩
    rw [heq]
    exact List.mem_append_right _ (List.mem_cons_self c post)
  · intro hd2
    obtain ⟨c, hc, _, hp, hl⟩ := hat2 hd2
    exact ⟨c, hc, hp, hl⟩

/-- Witness for C5 at concrete records, candidate and particle array. -/
theorem claim5_neighbor_exclusions_witness :
    ((0 = 0 ∨ testParticle.life ≤ 0 ∨ dOf vec3Zero (0, testParticle) = 0) →
      scanStep 0 vec3Zero initScanState (0, testParticle) = initScanState) ∧
    (∀ c ∈ validCands 0 vec3Zero testParts,
      c.1 ≠ 0 ∧ 0 < c.2.life ∧ 0 < dOf vec3Zero c) ∧
    ((neighborScan 0 vec3Zero testParts).d1 < 10000 →
      ∃ c ∈ validCands 0 vec3Zero testParts,
        c.2.position = (neighborScan 0 vec3Zero testParts).p1 ∧
        c.2.life = (neighborScan 0 vec3Zero testParts).l1) ∧
    ((neighborScan 0 vec3Zero testParts).d2 < 10000 →
      ∃ c ∈ validCands 0 vec3Zero testParts,
        c.2.position = (neighborScan 0 vec3Zero testParts).p2 ∧
        c.2.life = (neighborScan 0 vec3Zero testParts).l2) :=
  claim5_neighbor_exclusions 0 vec3Zero initScanState 0 testParticle testParts

/-- A paint event only ever increments counters: the session flags, sender,
window, pacing setting and dialog state are untouched, and the paint counter
goes up by exactly one. -/
theorem paintOp_fields (s : SpoutState) (fd : Frame) (th : Bool) :
    (paintOp s fd th).1.enabled = s.enabled ∧
    (paintOp s fd th).1.sender = s.sender ∧
    (paintOp s fd th).1.window = s.window ∧
    (paintOp s fd th).1.frameSkip = s.frameSkip ∧
    (paintOp s fd th).1.available = s.available ∧
    (paintOp s fd th).1.mainWindow = s.mainWindow ∧
    (paintOp s fd th).1.hasShownDialog = s.hasShownDialog ∧
    (paintOp s fd th).1.paintCount = s.paintCount + 1 := by
  cases fd <;> dsimp only [paintOp] <;> split_ifs <;> simp

/-- While a sender exists and the session is enabled, a texture or bitmap
paint is forwarded exactly when the incremented paint counter is divisible by
`frameSkip + 1` (with `frameSkip = 0` this is every paint). -/
theorem paintOp_attempted_iff (s : SpoutState) (fd : Frame) (th : Bool)
    (hs : s.sender = true) (he : s.enabled = true) (hfd : fd ≠ Frame.empty) :
    (paintOp s fd th).2.attempted = true ↔
      (s.paintCount + 1) % (s.frameSkip + 1) = 0 := by
  have hcond : ¬(s.sender = false ∨ s.enabled = false) := by simp [hs, he]
  cases fd with
  | empty => exact absurd rfl hfd
  | tex =>
    dsimp only [paintOp]
    rw [if_neg hcond]
    by_cases hm : (s.paintCount + 1) % (s.frameSkip + 1) = 0
    · rw [if_neg (by simp [hm])]
      simp [hm]
    · by_cases hk : 0 < s.frameSkip
      · rw [if_pos ⟨hk, by simpa using hm⟩]
        simp [hm]
      · have hk0 : s.frameSkip = 0 := by omega
        rw [hk0] at hm
        simp [Nat.mod_one] at hm
  | bmp =>
    dsimp only [paintOp]
    rw [if_neg hcond]
    by_cases hm : (s.paintCount + 1) % (s.frameSkip + 1) = 0
    · rw [if_neg (by simp [hm])]
      simp [hm]
    · by_cases hk : 0 < s.frameSkip
      · rw [if_pos ⟨hk, by simpa using hm⟩]
        simp [hm]
      · have hk0 : s.frameSkip = 0 := by omega
        rw [hk0] at hm
        simp [Nat.mod_one] at hm

/-- Running `n` paints preserves the session flags and advances the paint
counter by `n`. -/
theorem paintStates_fields (s : SpoutState) :
    ∀ n : ℕ, (paintStates s n).enabled = s.enabled ∧
      (paintStates s n).sender = s.sender ∧
      (paintStates s n).frameSkip = s.frameSkip ∧
      (paintStates s n).paintCount = s.paintCount + n := by
  intro n
  induction n with
  | zero => exact ⟨rfl, rfl, rfl, rfl⟩
  | succ n ih =>
    obtain ⟨h1, h2, h3, h4⟩ := ih
    obtain ⟨g1, g2, _, g4, _, _, _, g8⟩ :=
      paintOp_fields (paintStates s n) Frame.tex false
    refine ⟨?_, ?_, ?_, ?_⟩
    · rw [show paintStates s (n + 1)
        = (paintOp (paintStates s n) Frame.tex false).1 from rfl, g1, h1]
    · rw [show paintStates s (n + 1)
        = (paintOp (paintStates s n) Frame.tex false).1 from rfl, g2, h2]
    · rw [show paintStates s (n + 1)
        = (paintOp (paintStates s n) Frame.tex false).1 from rfl, g4, h3]
    · rw [show paintStates s (n + 1)
        = (paintOp (paintStates s n) Frame.tex false).1 from rfl, g8, h4]
      omega

/-- In a run of paints from an active state, the `(n+1)`-th paint is forwarded
exactly when paint counter `paintCount + n + 1` is divisible by
`frameSkip + 1`. -/
theorem nthForward_iff (s : SpoutState) (n : ℕ)
    (hs : s.sender = true) (he : s.enabled = true) :
    nthForward s n = true ↔
      (s.paintCount + n + 1) % (s.frameSkip + 1) = 0 := by
  unfold nthForward
  obtain ⟨h1, h2, h3, h4⟩ := paintStates_fields s n
  rw [paintOp_attempted_iff (paintStates s n) Frame.tex false
    (by rw [h2, hs]) (by rw [h1, he]) (by simp), h3, h4]

/-- In any window of `d` consecutive integers `pc+1, ..., pc+d`, exactly one
is divisible by `d`. -/
theorem mod_window_unique (d pc : ℕ) (hd : 0 < d) :
    ∃! n, n < d ∧ (pc + n + 1) % d = 0 := by
  have hmodlt : pc % d < d := Nat.mod_lt pc hd
  have hmodle : pc % d ≤ pc := Nat.mod_le pc d
  have hdm : d * (pc / d) + pc % d = pc := Nat.div_add_mod pc d
  have hn0 : (pc + (d - 1 - pc % d) + 1) % d = 0 := by
    have h3 : pc + (d - 1 - pc % d) + 1 = d * (pc / d + 1) := by
      have : d * (pc / d + 1) = d * (pc / d) + d := by ring
      omega
    rw [h3, Nat.mul_mod_right]
  refine ⟨d - 1 - pc % d, ⟨by omega, hn0⟩, ?_⟩
  intro m hm
  have hdvd1 : d ∣ pc + m + 1 := Nat.dvd_of_mod_eq_zero hm.2
  have hdvd2 : d ∣ pc + (d - 1 - pc % d) + 1 := Nat.dvd_of_mod_eq_zero hn0
  rcases le_total m (d - 1 - pc % d) with hle | hle
  · have hdvd : d ∣ (pc + (d - 1 - pc % d) + 1) - (pc + m + 1) :=
      Nat.dvd_sub' hdvd2 hdvd1
    have hz : (pc + (d - 1 - pc % d) + 1) - (pc + m + 1) = 0 :=
      Nat.eq_zero_of_dvd_of_lt hdvd (by omega) |>.symm ▸ rfl
    omega
  · have hdvd : d ∣ (pc + m + 1) - (pc + (d - 1 - pc % d) + 1) :=
      Nat.dvd_sub' hdvd1 hdvd2
    have hz : (pc + m + 1) - (pc + (d - 1 - pc % d) + 1) = 0 :=
      Nat.eq_zero_of_dvd_of_lt hdvd (by omega) |>.symm ▸ rfl
    omega

/-- Claim C2: while a session is active with frame-skip `k`, a paint is
forwarded exactly when the monotonically increasing paint counter (1 on the
first paint) is divisible by `k+1`; over any window of `k+1` consecutive
paints exactly one frame is forwarded; `frameSkip = 0` forwards every paint;
and from a fresh counter, `frameSkip = 2` forwards paints 3, 6, 9, ... -/
theorem claim2_frame_pacing (s : SpoutState) (k : ℕ)
    (h : s.enabled = true ∧ s.sender = true ∧ s.frameSkip = k) :
    (∀ n, nthForward s n = true ↔ (s.paintCount + n + 1) % (k + 1) = 0) ∧
    (∃! n, n < k + 1 ∧ nthForward s n = true) ∧
    (k = 0 → ∀ n, nthForward s n = true) ∧
    (k = 2 → s.paintCount = 0 →
      ∀ n, (nthForward s n = true ↔ (n + 1) % 3 = 0)) := by
  obtain ⟨he, hs, hk⟩ := h
  have hchar : ∀ n, nthForward s n = true ↔
      (s.paintCount + n + 1) % (k + 1) = 0 := by
    intro n
    rw [nthForward_iff s n hs he, hk]
  refine ⟨hchar, ?_, ?_, ?_⟩
  · obtain ⟨n0, hn0, hu⟩ := mod_window_unique (k + 1) s.paintCount
      (Nat.succ_pos k)
    refine ⟨n0, ⟨hn0.1, (hchar n0).mpr hn0.2⟩, ?_⟩
    intro m hm
    exact hu m ⟨hm.1, (hchar m).mp hm.2⟩
  · intro hk0 n
    rw [hchar n, hk0, Nat.mod_one]
  · intro hk2 hpc n
    rw [hchar n, hk2, hpc, Nat.zero_add]

/-- Witness for C2 at the concrete active state with `frameSkip = 2`: the
third paint is forwarded. -/
theorem claim2_frame_pacing_witness :
    (activeSpoutState.enabled = true ∧ activeSpoutState.sender = true ∧
      activeSpoutState.frameSkip = 2) ∧
    nthForward activeSpoutState 2 = true :=
  ⟨⟨rfl, rfl, rfl⟩,
    ((claim2_frame_pacing activeSpoutState 2 ⟨rfl, rfl, rfl⟩).1 2).mpr
      (by decide)⟩

/-- If an enable call showed the unavailable dialog, the once-only flag is set
afterwards; and with the flag set, no enable call ever shows the dialog again
or clears the flag. -/
theorem enableOp_dialog (s : SpoutState) (o : Option String) (th : Bool) :
    ((enableOp s o th).2.2 = true → (enableOp s o th).1.hasShownDialog = true) ∧
    (s.hasShownDialog = true → (enableOp s o th).1.hasShownDialog = true ∧
      (enableOp s o th).2.2 = false) := by
  unfold enableOp
  split_ifs with h1 h2 h3 <;> simp_all

/-- With the once-only flag already set, a run of enable calls shows zero
dialogs. -/
theorem enableRun_zero_of_flag :
    ∀ (calls : List (Option String × Bool)) (s : SpoutState),
      s.hasShownDialog = true → enableRun s calls = 0 := by
  intro calls
  induction calls with
  | nil =>
    intro s _
    rfl
  | cons c rest ih =>
    intro s hflag
    obtain ⟨o, th⟩ := c
    obtain ⟨hflag2, hnodialog⟩ := (enableOp_dialog s o th).2 hflag
    dsimp only [enableRun]
    rw [hnodialog]
    simpa using ih (enableOp s o th).1 hflag2

/-- Across any sequence of enable calls, the unavailable dialog is shown at
most once. -/
theorem enableRun_le_one :
    ∀ (calls : List (Option String × Bool)) (s : SpoutState),
      enableRun s calls ≤ 1 := by
  intro calls
  induction calls with
  | nil =>
    intro s
    exact Nat.zero_le 1
  | cons c rest ih =>
    intro s
    obtain ⟨o, th⟩ := c
    dsimp only [enableRun]
    by_cases hdl : (enableOp s o th).2.2 = true
    · rw [if_pos hdl, enableRun_zero_of_flag rest (enableOp s o th).1
        ((enableOp_dialog s o th).1 hdl)]
    · rw [if_neg hdl]
      simpa using ih (enableOp s o th).1

/-- Claim C7: enabling while the sender capability is unavailable fails with a
non-empty error string, leaves the session state (enabled flag, sender,
window) unchanged — in particular `getStatus` still reports not active — and
the operator dialog is shown at most once across any sequence of enable
calls. -/
theorem claim7_enable_unavailable (s : SpoutState) (opts : Option String)
    (th : Bool) (calls : List (Option String × Bool))
    (h : s.available = false) :
    (enableOp s opts th).2.1.success = false ∧
    (∃ e, (enableOp s opts th).2.1.error = some e ∧ e ≠ "") ∧
    (enableOp s opts th).1.enabled = s.enabled ∧
    (s.enabled = false → getStatus (enableOp s opts th).1 = false) ∧
    (enableOp s opts th).1.sender = s.sender ∧
    (enableOp s opts th).1.window = s.window ∧
    enableRun s calls ≤ 1 := by
  have hsucc : (enableOp s opts th).2.1.success = false := by
    simp only [enableOp]
    rw [if_pos h]
    split_ifs <;> rfl
  have herr : (enableOp s opts th).2.1.error
      = some "Spout not available - native module not compiled" := by
    simp only [enableOp]
    rw [if_pos h]
    split_ifs <;> rfl
  have hflags : (enableOp s opts th).1.enabled = s.enabled ∧
      (enableOp s opts th).1.sender = s.sender ∧
      (enableOp s opts th).1.window = s.window := by
    simp only [enableOp]
    rw [if_pos h]
    split_ifs <;> exact ⟨rfl, rfl, rfl⟩
  refine ⟨hsucc, ⟨_, herr, by decide⟩, hflags.1, ?_, hflags.2.1, hflags.2.2,
    enableRun_le_one calls s⟩
  intro he
  unfold getStatus
  rw [hflags.1, he]

/-- Witness for C7 from the fresh unavailable startup state. -/
theorem claim7_enable_unavailable_witness :
    (initialSpoutState false).available = false ∧
    ((enableOp (initialSpoutState false) none false).2.1.success = false ∧
      (∃ e, (enableOp (initialSpoutState false) none false).2.1.error = some e ∧
        e ≠ "") ∧
      (enableOp (initialSpoutState false) none false).1.enabled
        = (initialSpoutState false).enabled ∧
      ((initialSpoutState false).enabled = false →
        getStatus (enableOp (initialSpoutState false) none false).1 = false) ∧
      (enableOp (initialSpoutState false) none false).1.sender
        = (initialSpoutState false).sender ∧
      (enableOp (initialSpoutState false) none false).1.window
        = (initialSpoutState false).window ∧
      enableRun (initialSpoutState false) [] ≤ 1) :=
  ⟨rfl, claim7_enable_unavailable (initialSpoutState false) none false [] rfl⟩

/-- Claim C8: if forwarding a frame throws, the exception is caught and
logged, the session stays active with its sender, window and pacing intact,
and subsequent paints are still processed by the normal forwarding rule — a
single failing frame never tears down the stream. -/
theorem claim8_frame_error_contained (s : SpoutState) (fd : Frame)
    (h : s.enabled = true ∧ s.sender = true) :
    (paintOp s fd true).1.enabled = true ∧
    (paintOp s fd true).1.sender = true ∧
    (paintOp s fd true).1.window = s.window ∧
    (paintOp s fd true).1.frameSkip = s.frameSkip ∧
    ((paintOp s fd true).2.attempted = true →
      (paintOp s fd true).2.errorLogged = true) ∧
    (∀ n, nthForward (paintOp s fd true).1 n = true ↔
      ((paintOp s fd true).1.paintCount + n + 1) % (s.frameSkip + 1) = 0) := by
  obtain ⟨he, hs⟩ := h
  obtain ⟨g1, g2, g3, g4, _, _, _, _⟩ := paintOp_fields s fd true
  refine ⟨by rw [g1, he], by rw [g2, hs], g3, g4, ?_, ?_⟩
  · cases fd <;> dsimp only [paintOp] <;> split_ifs <;> simp
  · intro n
    rw [nthForward_iff (paintOp s fd true).1 n (by rw [g2, hs])
      (by rw [g1, he]), g4]

/-- Witness for C8 at the concrete active state and a texture frame. -/
theorem claim8_frame_error_contained_witness :
    (activeSpoutState.enabled = true ∧ activeSpoutState.sender = true) ∧
    ((paintOp activeSpoutState Frame.tex true).1.enabled = true ∧
      (paintOp activeSpoutState Frame.tex true).1.sender = true ∧
      (paintOp activeSpoutState Frame.tex true).1.window
        = activeSpoutState.window ∧
      (paintOp activeSpoutState Frame.tex true).1.frameSkip
        = activeSpoutState.frameSkip ∧
      ((paintOp activeSpoutState Frame.tex true).2.attempted = true →
        (paintOp activeSpoutState Frame.tex true).2.errorLogged = true) ∧
      (∀ n, nthForward (paintOp activeSpoutState Frame.tex true).1 n = true ↔
        ((paintOp activeSpoutState Frame.tex true).1.paintCount + n + 1) %
          (activeSpoutState.frameSkip + 1) = 0)) :=
  ⟨⟨rfl, rfl⟩,
    claim8_frame_error_contained activeSpoutState Frame.tex ⟨rfl, rfl⟩⟩

/-- Claim C9: disabling from any state leaves no sender, no offscreen window
and an inactive session (and reports success); and whenever the session is
not active, a paint event forwards nothing and only increments the paint
counter. -/
theorem claim9_disable_clean (s : SpoutState) (fd : Frame) (th : Bool) :
    (disableOp s).1.sender = false ∧
    (disableOp s).1.enabled = false ∧
    (disableOp s).1.window = none ∧
    (disableOp s).2 = true ∧
    (s.enabled = false →
      (paintOp s fd th).2.attempted = false ∧
      (paintOp s fd th).2.errorLogged = false ∧
      (paintOp s fd th).1 = { s with paintCount := s.paintCount + 1 }) := by
  refine ⟨rfl, rfl, rfl, rfl, ?_⟩
  intro h
  dsimp only [paintOp]
  rw [if_pos (Or.inr h)]
  exact ⟨rfl, rfl, rfl⟩

/-- Witness for C9 at the fresh (inactive) startup state. -/
theorem claim9_disable_clean_witness :
    ((disableOp (initialSpoutState true)).1.sender = false ∧
      (disableOp (initialSpoutState true)).1.enabled = false ∧
      (disableOp (initialSpoutState true)).1.window = none ∧
      (disableOp (initialSpoutState true)).2 = true ∧
      ((initialSpoutState true).enabled = false →
        (paintOp (initialSpoutState true) Frame.tex false).2.attempted = false ∧
        (paintOp (initialSpoutState true) Frame.tex false).2.errorLogged
          = false ∧
        (paintOp (initialSpoutState true) Frame.tex false).1
          = { initialSpoutState true with
                paintCount := (initialSpoutState true).paintCount + 1 })) :=
  claim9_disable_clean (initialSpoutState true) Frame.tex false

/-- Claim C10: the offscreen surface is created at 1280×720 exactly when the
requested resolution string is `'720p'`; an omitted (or empty) resolution
defaults to `'1080p'`, and every other value yields a 1920×1080 surface; an
enable call on a fresh session creates the window at that resolved size. -/
theorem claim10_resolution (opts : Option String) (s : SpoutState) :
    (resolveSize (resolveResolution opts) = (1280, 720) ↔
      opts = some "720p") ∧
    resolveResolution none = "1080p" ∧
    (resolveSize (resolveResolution opts) = (1280, 720) ∨
      resolveSize (resolveResolution opts) = (1920, 1080)) ∧
    (s.available = true → s.window = none →
      (enableOp s opts false).1.window
        = some (resolveSize (resolveResolution opts))) := by
  refine ⟨?_, rfl, ?_, ?_⟩
  · cases opts with
    | none =>
      rw [show resolveResolution none = "1080p" from rfl]
      unfold resolveSize
      rw [if_neg (by decide : ¬("1080p" : String) = "720p")]
      exact ⟨fun hcon => absurd hcon (by decide),
        fun hcon => absurd hcon (by decide)⟩
    | some str =>
      rw [show resolveResolution (some str)
        = if str = "" then "1080p" else str from rfl]
      unfold resolveSize
      by_cases h0 : str = ""
      · rw [if_pos h0, if_neg (by decide : ¬("1080p" : String) = "720p")]
        refine ⟨fun hcon => absurd hcon (by decide), fun hcon => ?_⟩
        rw [Option.some_inj.mp hcon] at h0
        exact absurd h0 (by decide)
      · rw [if_neg h0]
        by_cases h7 : str = "720p"
        · rw [if_pos h7, h7]
          simp
        · rw [if_neg h7]
          exact ⟨fun hcon => absurd hcon (by decide),
            fun hcon => absurd (Option.some_inj.mp hcon) h7⟩
  · unfold resolveSize
    split_ifs <;> simp
  · intro hav hw
    unfold enableOp createSpoutWindow
    rw [if_neg (by simp [hav]), hw]
    simp

/-- Witness for C10 at a concrete request and the fresh available state. -/
theorem claim10_resolution_witness :
    ((resolveSize (resolveResolution (some "720p")) = (1280, 720) ↔
      some "720p" = some "720p") ∧
      resolveResolution none = "1080p" ∧
      (resolveSize (resolveResolution (some "720p")) = (1280, 720) ∨
        resolveSize (resolveResolution (some "720p")) = (1920, 1080)) ∧
      ((initialSpoutState true).available = true →
        (initialSpoutState true).window = none →
        (enableOp (initialSpoutState true) (some "720p") false).1.window
          = some (resolveSize (resolveResolution (some "720p"))))) :=
  claim10_resolution (some "720p") (initialSpoutState true)

end MusicVis
